import Mathlib

/-!
Verification of the logger-configuration module of `hhnk_research_tools`
(file `src/hhnk_research_tools/logger.py`), via a shallow embedding.

Conventions of the embedding:
* Python strings are Lean `String` (or `List Char` where string algorithms
  are analysed); Python logging levels are their numeric values
  (NOTSET = 0, DEBUG = 10, INFO = 20, WARNING = 30, ERROR = 40).
* Python dicts that are built key-by-key are association lists in insertion
  order (CPython dicts preserve insertion order); assigning to an existing
  key keeps its position, a fresh key is appended (`setKey`).
* A `logging.Logger` is a record of its own level, the levels of its
  ancestor chain (nearest first, used only by `getEffectiveLevel`), and its
  attached handler list.  `logger.debug(...)` calls do not change this
  state and are dropped.
* The CPython class hierarchy relevant to the `isinstance` checks in the
  source is: `StreamHandler` <: `Handler`, `FileHandler` <: `StreamHandler`,
  `RotatingFileHandler` <: `FileHandler`, `NullHandler` <: `Handler`.
* File-system paths are modelled as normalised POSIX path strings;
  `pathlib` `Path == Path` is equality of those strings, and `Path == str`
  is always `False` (CPython: `PurePath.__eq__` returns `NotImplemented`
  for a non-path operand, and the fallback comparison is identity).
* `os.path.abspath` (applied by `logging.FileHandler` to produce
  `stream.name`) is modelled for a fixed working directory `/cwd`.
-/

namespace HrtLogger

deriving instance DecidableEq for Except

/-- `LOGFORMAT` of logger.py line 16 (default log format). -/
def LOGFORMAT : String := "%(asctime)s|%(levelname)-8s| %(name)s:%(lineno)-4d| %(message)s"

/-- `DATEFMT` of logger.py line 17 (default date format for the console logger). -/
def DATEFMT : String := "%H:%M:%S"

/- ### Python `str.replace` on `List Char`

`str.replace(old, new)` replaces every non-overlapping occurrence of `old`
left to right.  The recursion consumes fuel so that the definition is
structural (hence kernel-reducible); `pyReplace` supplies `s.length` fuel,
which is always sufficient. -/

/-- Fuel-indexed scanner for `str.replace`: at each position either the
pattern matches (emit `rep`, continue after the match) or the head
character is kept.  With fuel `0` the remaining string is returned as is;
callers always supply enough fuel for that case never to matter. -/
def replaceFuel (pat rep : List Char) : Nat → List Char → List Char
  | 0, s => s
  | _ + 1, [] => []
  | fuel + 1, c :: cs =>
    if pat.isPrefixOf (c :: cs) then rep ++ replaceFuel pat rep fuel (cs.drop (pat.length - 1))
    else c :: replaceFuel pat rep fuel cs

/-- Python `s.replace(pat, rep)` for a non-empty `pat`. -/
def pyReplace (pat rep s : List Char) : List Char := replaceFuel pat rep s.length s

/-- The alias key `"hhnk_research_tools"` (logger.py line 228). -/
def strP1 : List Char :=
  ['h', 'h', 'n', 'k', '_', 'r', 'e', 's', 'e', 'a', 'r', 'c', 'h', '_', 't', 'o', 'o', 'l', 's']

/-- The alias key `"hhnk_threedi_tools"` (logger.py line 229). -/
def strP2 : List Char :=
  ['h', 'h', 'n', 'k', '_', 't', 'h', 'r', 'e', 'e', 'd', 'i', '_', 't', 'o', 'o', 'l', 's']

/-- The alias value `"hrt"`. -/
def strHrt : List Char := ['h', 'r', 't']

/-- The alias value `"htt"`. -/
def strHtt : List Char := ['h', 't', 't']

/-- The name rewriting of `get_logger` (logger.py lines 227-233): the two
`name.replace(old, new)` calls, applied in the dict's insertion order
(`"hhnk_research_tools" -> "hrt"` first, then `"hhnk_threedi_tools" -> "htt"`). -/
def rewriteNameL (name : List Char) : List Char :=
  pyReplace strP2 strHtt (pyReplace strP1 strHrt name)

/-- String-level wrapper of `rewriteNameL`: the registry key `get_logger`
looks up after its replacement loop. -/
def get_logger_name (name : String) : String := String.mk (rewriteNameL name.data)

/- ### Handlers and loggers -/

/-- Runtime class of a handler object, as far as the module's `isinstance`
checks can tell them apart. -/
inductive HKind
  | stream
  | file
  | rotatingFile
  | null
  | other
deriving DecidableEq

/-- `isinstance(h, logging.StreamHandler)`: `FileHandler` and
`RotatingFileHandler` are subclasses of `StreamHandler` in CPython. -/
def isStreamHandlerClass : HKind → Bool
  | HKind.stream => true
  | HKind.file => true
  | HKind.rotatingFile => true
  | _ => false

/-- `isinstance(h, (logging.FileHandler, RotatingFileHandler))`:
`RotatingFileHandler` is itself a subclass of `FileHandler`. -/
def isFileHandlerClass : HKind → Bool
  | HKind.file => true
  | HKind.rotatingFile => true
  | _ => false

/-- A handler (sink) attached to a logger.  `streamName` is
`handler.stream.name` (for file handlers: the absolute path the handler
writes to; for console handlers a pseudo name).  `formatter` is the
`(fmt, datefmt)` pair of the attached `logging.Formatter`. -/
structure Handler where
  kind : HKind
  streamName : String
  formatter : Option (String × String)
  level : Nat
  mode : String
  maxBytes : Nat
  backupCount : Nat
  hasFilter : Bool
deriving DecidableEq

/-- A console sink: an exact `logging.StreamHandler` (not file-backed). -/
def isConsole (h : Handler) : Bool :=
  match h.kind with
  | HKind.stream => true
  | _ => false

/-- Number of console sinks in a handler list. -/
def consoleCount (hs : List Handler) : Nat := List.countP isConsole hs

/-- A named logger: own level, levels of its ancestor chain (nearest
first; platform model for level inheritance), attached handlers. -/
structure PyLogger where
  level : Nat
  ancestorLevels : List Nat
  handlers : List Handler
deriving DecidableEq

/-- First explicitly set (non-zero) level in a chain of levels. -/
def effLevelList : List Nat → Nat
  | [] => 0
  | l :: ls => if l ≠ 0 then l else effLevelList ls

/-- CPython `Logger.getEffectiveLevel`: walk the logger and then its
ancestors, return the first level that is not `NOTSET` (0), else 0. -/
def getEffectiveLevel (lg : PyLogger) : Nat :=
  effLevelList (lg.level :: lg.ancestorLevels)

/- ### Paths -/

/-- The `filepath : Union[str, Path]` argument of `add_file_handler`. -/
inductive PyPathArg
  | ofStr (s : String)
  | ofPath (p : String)
deriving DecidableEq

/-- `str(filepath)`. -/
def pyPathArgStr : PyPathArg → String
  | PyPathArg.ofStr s => s
  | PyPathArg.ofPath p => p

/-- Python `Path(name) == filepath` (logger.py line 150).  Comparing a
`PurePath` with a `str` is always `False` in CPython; two paths compare
by their (normalised) string. -/
def pathEqArg (name : String) : PyPathArg → Bool
  | PyPathArg.ofStr _ => false
  | PyPathArg.ofPath p => name == p

/-- Does the path string start with `/`? -/
def isAbsPath (s : String) : Bool :=
  match s.data with
  | [] => false
  | c :: _ => c == '/'

/-- `os.path.abspath`, for the fixed working directory `/cwd`. -/
def abspathModel (s : String) : String :=
  if isAbsPath s then s else String.append "/cwd/" s

/- ### add_file_handler (logger.py lines 121-172) -/

/-- The removal scan of `add_file_handler` (lines 147-152):
`for handler in logger.handlers: if cond(handler): logger.removeHandler(handler)`.
CPython list iteration advances an index; removing the current element
shifts the rest left, so the element that moves into the current slot is
skipped (kept without being examined). -/
def scanRemoveSkip (cond : Handler → Bool) : List Handler → List Handler
  | [] => []
  | [h] => if cond h then [] else [h]
  | h :: k :: rest =>
    if cond h then k :: scanRemoveSkip cond rest
    else h :: scanRemoveSkip cond (k :: rest)

/-- The file handler object built and configured by lines 154-170:
created by the `rotate` branch, then given its formatter, its level
(`logger.level` when `filelevel` was left at `""`), and optionally the
filter.  Note the source really does build a plain `FileHandler` when
`rotate` is true and a `RotatingFileHandler` when it is false. -/
def newFileHandler (lg : PyLogger) (filepath : PyPathArg) (filemode : String)
    (filelevel : Option Nat) (fmt : String) (datefmt : String)
    (maxBytes : Nat) (backupCount : Nat) (rotate : Bool) (logfilter : Bool) : Handler :=
  let fh : Handler :=
    if rotate then
      { kind := HKind.file, streamName := abspathModel (pyPathArgStr filepath),
        formatter := none, level := 0, mode := filemode, maxBytes := 0,
        backupCount := 0, hasFilter := false }
    else
      { kind := HKind.rotatingFile, streamName := abspathModel (pyPathArgStr filepath),
        formatter := none, level := 0, mode := filemode, maxBytes := maxBytes,
        backupCount := backupCount, hasFilter := false }
  let fh := { fh with formatter := some (fmt, datefmt) }
  let fh := { fh with level := match filelevel with | none => lg.level | some l => l }
  if logfilter then { fh with hasFilter := true } else fh

/-- `add_file_handler(logger, filepath, filemode="a", filelevel="", fmt=LOGFORMAT,
datefmt="%Y-%m-%d %H:%M:%S", maxBytes=10*1024*1024, backupCount=5, rotate=False,
logfilter=None)` of logger.py lines 121-172.  `filelevel = none` models the
`""` default (line 164 then substitutes `logger.level`); `logfilter` is
modelled by whether a filter object was passed. -/
def add_file_handler (lg : PyLogger) (filepath : PyPathArg) (filemode : String)
    (filelevel : Option Nat) (fmt : String) (datefmt : String)
    (maxBytes : Nat) (backupCount : Nat) (rotate : Bool) (logfilter : Bool) : PyLogger :=
  let hs := scanRemoveSkip
    (fun h => isFileHandlerClass h.kind && pathEqArg h.streamName filepath) lg.handlers
  let fh := newFileHandler lg filepath filemode filelevel fmt datefmt maxBytes
    backupCount rotate logfilter
  { lg with handlers := hs ++ [fh] }

/- ### _add_or_update_streamhandler_format (logger.py lines 175-199) -/

/-- The scan of lines 180-185: find the first handler that is an instance
of `logging.StreamHandler` and replace its formatter; `none` when there is
no such handler. -/
def updateFirstStreamFmt (fmt datefmt : String) : List Handler → Option (List Handler)
  | [] => none
  | h :: rest =>
    if isStreamHandlerClass h.kind then
      some ({ h with formatter := some (fmt, datefmt) } :: rest)
    else
      match updateFirstStreamFmt fmt datefmt rest with
      | some rest' => some (h :: rest')
      | none => none

/-- The fresh `logging.StreamHandler(sys.stdout)` of lines 196-197 with
its formatter set. -/
def mkStreamHandler (fmt datefmt : String) : Handler :=
  { kind := HKind.stream, streamName := "<stdout>", formatter := some (fmt, datefmt),
    level := 0, mode := "", maxBytes := 0, backupCount := 0, hasFilter := false }

/-- `_add_or_update_streamhandler_format(logger, fmt, datefmt)`: update the
formatter of the first `StreamHandler`-instance, or attach a fresh
`StreamHandler(sys.stdout)` with the given formatter. -/
def _add_or_update_streamhandler_format (lg : PyLogger) (fmt datefmt : String) : PyLogger :=
  match updateFirstStreamFmt fmt datefmt lg.handlers with
  | some hs => { lg with handlers := hs }
  | none => { lg with handlers := lg.handlers ++ [mkStreamHandler fmt datefmt] }

/- ### get_logconfig_dict (logger.py lines 20-93) -/

/-- A value stored under a level key of `level_dict`. -/
inductive PyVal
  | pylist (xs : List String)
  | pystr (s : String)
  | pyint (n : Int)
deriving DecidableEq

/-- `isinstance(v, list)`. -/
def isPyList : PyVal → Bool
  | PyVal.pylist _ => true
  | _ => false

/-- A named sink definition in the configuration dictionary; absent dict
keys are `none`. -/
structure SinkDef where
  cls : String
  level : Option String
  formatterName : Option String
  stream : Option String
  whenD : Option String
  backupCount : Option Nat
  filename : Option String
deriving DecidableEq

/-- A per-logger entry of the configuration dictionary; only the root
entry carries a `handlers` list. -/
structure LoggerEntry where
  level : String
  handlers : Option (List String)
deriving DecidableEq

/-- A named formatter definition. -/
structure FmtDef where
  format : String
  datefmt : String
deriving DecidableEq

/-- The configuration dictionary built by `get_logconfig_dict`. -/
structure LogConfigDict where
  version : Nat
  disableExistingLoggers : Bool
  loggers : List (String × LoggerEntry)
  handlers : List (String × SinkDef)
  formatters : List (String × FmtDef)
deriving DecidableEq

/-- Python dict assignment `d[k] = v` on an insertion-ordered association
list: overwrite in place, or append a fresh key. -/
def setKey {α : Type} (k : String) (v : α) : List (String × α) → List (String × α)
  | [] => [(k, v)]
  | (k', v') :: rest => if k' = k then (k, v) :: rest else (k', v') :: setKey k v rest

/-- Python dict lookup `d.get(k)`. -/
def lookupKey {α : Type} (k : String) : List (String × α) → Option α
  | [] => none
  | (k', v) :: rest => if k' = k then some v else lookupKey k rest

/-- The literal `logconfig_dict` of logger.py lines 33-67 before the
override loop and the file branch run. -/
def baseConfigDict (level_root : String) : LogConfigDict :=
  { version := 1
    disableExistingLoggers := false
    loggers := [("", { level := level_root, handlers := some ["debug_console_handler", "stderr"] })]
    handlers :=
      [ ("null",
         { cls := "logging.NullHandler", level := none, formatterName := none,
           stream := none, whenD := none, backupCount := none, filename := none })
      , ("debug_console_handler",
         { cls := "logging.StreamHandler", level := some "NOTSET",
           formatterName := some "time_level_name", stream := some "ext://sys.stdout",
           whenD := none, backupCount := none, filename := none })
      , ("stderr",
         { cls := "logging.StreamHandler", level := some "ERROR",
           formatterName := some "time_level_name", stream := some "ext://sys.stderr",
           whenD := none, backupCount := none, filename := none }) ]
    formatters := [("time_level_name", { format := LOGFORMAT, datefmt := DATEFMT })] }

/-- Inner loop of lines 75-80: `logconfig_dict["loggers"][pkg] = {"level": loglevel}`
for each listed package. -/
def applyLevelList (loglevel : String) (pkgs : List String)
    (loggers : List (String × LoggerEntry)) : List (String × LoggerEntry) :=
  pkgs.foldl (fun acc pkg => setKey pkg { level := loglevel, handlers := none } acc) loggers

/-- Outer loop of lines 71-80 over `level_dict.items()`, including the
`TypeError` of lines 72-73 for a non-list value. -/
def applyLevelDict : List (String × PyVal) → LogConfigDict → Except String LogConfigDict
  | [], cfg => Except.ok cfg
  | (loglevel, v) :: rest, cfg =>
    match v with
    | PyVal.pylist pkgs =>
        applyLevelDict rest { cfg with loggers := applyLevelList loglevel pkgs cfg.loggers }
    | _ => Except.error "Level_dict should provide lists."

/-- The `info_rotating_file_handler` sink definition of lines 85-92. -/
def fileHandlerSink (p : String) : SinkDef :=
  { cls := "logging.handlers.TimedRotatingFileHandler", level := some "INFO",
    formatterName := some "time_level_name", stream := none, whenD := some "D",
    backupCount := some 7, filename := some p }

/-- Python truthiness of the optional `log_filepath` string (`None` and
`""` are falsy). -/
def pyTruthyOptStr : Option String → Bool
  | none => false
  | some s => if s = "" then false else true

/-- Python truthiness of the optional `level_dict` mapping (`None` and an
empty dict are falsy). -/
def pyTruthyDict : Option (List (String × PyVal)) → Bool
  | none => false
  | some l => !l.isEmpty

/-- `get_logconfig_dict(level_root="WARNING", level_dict=None, log_filepath=None)`
of logger.py lines 20-93.  An `Except.error` is the `TypeError` escaping the
call. -/
def get_logconfig_dict (level_root : String) (level_dict : Option (List (String × PyVal)))
    (log_filepath : Option String) : Except String LogConfigDict :=
  let base := baseConfigDict level_root
  match (if pyTruthyDict level_dict then applyLevelDict (level_dict.getD []) base
         else Except.ok base) with
  | Except.error e => Except.error e
  | Except.ok cfg1 =>
    if pyTruthyOptStr log_filepath then
      let hs := setKey "info_rotating_file_handler"
        (fileHandlerSink (log_filepath.getD "")) cfg1.handlers
      Except.ok { cfg1 with handlers := hs }
    else Except.ok cfg1

/-- The process-wide state installed by `logging.config.dictConfig`
(platform model: the currently applied configuration). -/
structure GlobalLogState where
  appliedConfig : Option LogConfigDict
deriving DecidableEq

/-- `logging.config.dictConfig(cfg)`: replace the applied configuration. -/
def dictConfigApply (cfg : LogConfigDict) (_g : GlobalLogState) : GlobalLogState :=
  { appliedConfig := some cfg }

/-- `set_default_logconfig` of logger.py lines 96-118: build the dict, then
apply it; an exception from the build propagates and the global state is
not touched. -/
def set_default_logconfig (level_root : String) (level_dict : Option (List (String × PyVal)))
    (log_filepath : Option String) (g : GlobalLogState) : Except String GlobalLogState :=
  match get_logconfig_dict level_root level_dict log_filepath with
  | Except.error e => Except.error e
  | Except.ok cfg => Except.ok (dictConfigApply cfg g)

/-- Variant of the override loop that also re-emits the `level_dict`
entries it iterated over, making the calling convention explicit: the
body of the loop reads each item and never assigns into the mapping. -/
def applyLevelDictTrace : List (String × PyVal) → LogConfigDict →
    Except String LogConfigDict × List (String × PyVal)
  | [], cfg => (Except.ok cfg, [])
  | (loglevel, v) :: rest, cfg =>
    match v with
    | PyVal.pylist pkgs =>
        let r := applyLevelDictTrace rest
          { cfg with loggers := applyLevelList loglevel pkgs cfg.loggers }
        (r.1, (loglevel, v) :: r.2)
    | _ => (Except.error "Level_dict should provide lists.", (loglevel, v) :: rest)

/-- The full calling convention of `get_logconfig_dict`: the result
together with the caller's `level_dict` object and the process-wide
logging state after the call.  No statement of lines 20-93 assigns into
`level_dict` or calls into the logging facility, which the translation
makes explicit by threading both through. -/
def get_logconfig_dict_call (level_root : String)
    (level_dict : Option (List (String × PyVal))) (log_filepath : Option String)
    (g : GlobalLogState) :
    Except String LogConfigDict × Option (List (String × PyVal)) × GlobalLogState :=
  let base := baseConfigDict level_root
  let step : Except String LogConfigDict × Option (List (String × PyVal)) :=
    match level_dict with
    | none => (Except.ok base, none)
    | some l =>
      if l.isEmpty then (Except.ok base, some l)
      else
        let r := applyLevelDictTrace l base
        (r.1, some r.2)
  match step.1 with
  | Except.error e => (Except.error e, step.2, g)
  | Except.ok cfg1 =>
    if pyTruthyOptStr log_filepath then
      let hs := setKey "info_rotating_file_handler"
        (fileHandlerSink (log_filepath.getD "")) cfg1.handlers
      (Except.ok { cfg1 with handlers := hs }, step.2, g)
    else (Except.ok cfg1, step.2, g)

/- ### get_logger (logger.py lines 202-249) -/

/-- `logging.getLogger(name)` on an explicit registry: return the handle
registered under `name`, creating a fresh one if absent. -/
def getLoggerReg (reg : List (String × PyLogger)) (name : String) :
    PyLogger × List (String × PyLogger) :=
  match lookupKey name reg with
  | some lg => (lg, reg)
  | none =>
    let lg : PyLogger := { level := 0, ancestorLevels := [], handlers := [] }
    (lg, reg ++ [(name, lg)])

/-- `get_logger(name, level=None, fmt=LOGFORMAT, datefmt=DATEFMT)` of
logger.py lines 202-249.  The handle is mutated in place in CPython; the
model writes the final handle back to the registry under its key. -/
def get_logger (reg : List (String × PyLogger)) (name : String) (level : Option Nat)
    (fmt : String) (datefmt : String) : PyLogger × List (String × PyLogger) :=
  let name' := get_logger_name name
  let r := getLoggerReg reg name'
  let lg := match level with | some l => { r.1 with level := l } | none => r.1
  let lg := if fmt ≠ LOGFORMAT ∨ datefmt ≠ DATEFMT then
      _add_or_update_streamhandler_format lg fmt datefmt
    else lg
  (lg, setKey name' lg r.2)

/- ### Auxiliary definitions used by the verification -/

/-- Pure characterisation of the override loop on the `loggers` table
(what `applyLevelDict` computes when it does not raise). -/
def loggersFold : List (String × PyVal) → List (String × LoggerEntry) → List (String × LoggerEntry)
  | [], ls => ls
  | (lvl, PyVal.pylist pkgs) :: rest, ls => loggersFold rest (applyLevelList lvl pkgs ls)
  | (_, _) :: rest, ls => loggersFold rest ls

/-- All namespaces listed in a `level_dict`, in order. -/
def allPkgs (ld : List (String × PyVal)) : List String :=
  (ld.map (fun p => match p.2 with | PyVal.pylist xs => xs | _ => [])).flatten

/-- A fresh logger handle with no handlers and level `NOTSET`. -/
def lgEmpty : PyLogger := { level := 0, ancestorLevels := [], handlers := [] }

/-- The file branch of lines 82-92: add the timed-rotating sink for the
given path to the handlers table. -/
def withFileSink (fp : Option String) (cfg1 : LogConfigDict) : LogConfigDict :=
  let hs := setKey "info_rotating_file_handler" (fileHandlerSink (fp.getD "")) cfg1.handlers
  { cfg1 with handlers := hs }

/-- A logger handle whose only sink is file-backed (used as a concrete
input). -/
def lgFileOnly : PyLogger :=
  let h : Handler :=
    { kind := HKind.rotatingFile, streamName := "/cwd/app.log",
      formatter := some (LOGFORMAT, "%Y-%m-%d %H:%M:%S"), level := 0, mode := "a",
      maxBytes := 10485760, backupCount := 5, hasFilter := false }
  { level := 0, ancestorLevels := [], handlers := [h] }

/-- The descriptor for `level_root = "INFO"` with one DEBUG override for
`"app"` (used as a concrete witness input). -/
def withOverride : LogConfigDict :=
  let ls := (baseConfigDict "INFO").loggers ++ [("app", { level := "DEBUG", handlers := none })]
  { baseConfigDict "INFO" with loggers := ls }

/-- Number of file-backed sinks attached to a logger whose stream writes
to the path `p`. -/
def fileSinksAt (p : String) (lg : PyLogger) : Nat :=
  List.countP (fun h => isFileHandlerClass h.kind && (h.streamName == p)) lg.handlers

/-! ## Theory of `pyReplace` (Python `str.replace`)

The goal of this section is the idempotence of the alias rewriting of
`get_logger`: once both replacements ran, running them again changes
nothing.  The core facts are that replacement output never contains the
scanned pattern again, and that replacing one pattern cannot create an
occurrence of the other, both under decidable overlap side conditions on
the concrete pattern/replacement strings. -/

/-- Bridge between the boolean `List.isPrefixOf` used by the scanner and
the `<+:` relation. -/
theorem isPrefixOf_true_iff (l₁ l₂ : List Char) : l₁.isPrefixOf l₂ = true ↔ l₁ <+: l₂ :=
  List.isPrefixOf_iff_prefix

/-- Fuel does not matter as long as it is at least the string length. -/
theorem replaceFuel_congr (pat rep : List Char) :
    ∀ f1 f2 s, s.length ≤ f1 → s.length ≤ f2 →
      replaceFuel pat rep f1 s = replaceFuel pat rep f2 s := by
  intro f1
  induction f1 with
  | zero =>
    intro f2 s h1 h2
    have hs : s = [] := List.eq_nil_of_length_eq_zero (Nat.le_zero.mp h1)
    subst hs
    cases f2 <;> rfl
  | succ f1 ih =>
    intro f2 s h1 h2
    match f2, s with
    | 0, s =>
      have hs : s = [] := List.eq_nil_of_length_eq_zero (Nat.le_zero.mp h2)
      subst hs; rfl
    | f2 + 1, [] => rfl
    | f2 + 1, c :: cs =>
      have hc1 : cs.length ≤ f1 := Nat.le_of_succ_le_succ h1
      have hc2 : cs.length ≤ f2 := Nat.le_of_succ_le_succ h2
      cases hm : pat.isPrefixOf (c :: cs) with
      | true =>
        simp only [replaceFuel, hm, if_true]
        have hd : (cs.drop (pat.length - 1)).length ≤ cs.length := by
          simp [List.length_drop]
        exact congrArg (rep ++ ·) (ih f2 _ (le_trans hd hc1) (le_trans hd hc2))
      | false =>
        simp only [replaceFuel, hm, if_false]
        exact congrArg (c :: ·) (ih f2 cs hc1 hc2)

/-- Unfolding of the scanner at a non-matching position. -/
theorem replaceFuel_skip (pat rep : List Char) (c : Char) (s : List Char) (fuel : Nat)
    (hm : pat.isPrefixOf (c :: s) = false) :
    replaceFuel pat rep (fuel + 1) (c :: s) = c :: replaceFuel pat rep fuel s := by
  simp [replaceFuel, hm]

/-- An occurrence of `p` inside `x ++ y` lies in `x`, lies in `y`, or
spans the junction with a nonempty part on each side. -/
theorem infix_append_cases : ∀ (x p y : List Char), p <:+: x ++ y →
    p <:+: x ∨ p <:+: y ∨
      ∃ k, 0 < k ∧ k < p.length ∧ (p.take k) <:+ x ∧ (p.drop k) <+: y
  | [], p, y, h => Or.inr (Or.inl h)
  | c :: x', p, y, h => by
    rcases List.infix_cons_iff.mp h with hpre | htail
    · by_cases hlen : p.length ≤ (c :: x').length
      · exact Or.inl (List.prefix_of_prefix_length_le hpre (List.prefix_append _ _) hlen).isInfix
      · push_neg at hlen
        have hx : (c :: x') <+: p :=
          List.prefix_of_prefix_length_le (List.prefix_append _ _) hpre (le_of_lt hlen)
        refine Or.inr (Or.inr ⟨(c :: x').length, Nat.succ_pos _, hlen, ?_, ?_⟩)
        · have ht : p.take (c :: x').length = c :: x' := (List.prefix_iff_eq_take.mp hx).symm
          rw [ht]
        · obtain ⟨t, ht⟩ := hpre
          obtain ⟨u, hu⟩ := hx
          have hdrop : p.drop (c :: x').length = u := by rw [← hu, List.drop_left]
          refine ⟨t, ?_⟩
          rw [hdrop]
          have hjoin : (c :: x') ++ (u ++ t) = (c :: x') ++ y := by
            rw [← List.append_assoc, hu, ht]
            rfl
          exact List.append_cancel_left hjoin
    · rcases infix_append_cases x' p y htail with h1 | h2 | ⟨k, hk0, hkl, hts, htp⟩
      · exact Or.inl (h1.trans (List.suffix_cons c x').isInfix)
      · exact Or.inr (Or.inl h2)
      · exact Or.inr (Or.inr ⟨k, hk0, hkl, hts.trans (List.suffix_cons c x'), htp⟩)

/-- Key lemma: a nonempty suffix of `patA` that is a prefix of the
replacement output is already a prefix of the input, provided no
nonempty proper suffix of `patA` is a prefix of `rep` and `rep` is not
an infix of `patA`. -/
theorem dropPrefixKey (patA pat rep : List Char)
    (h4 : ¬ rep <:+: patA)
    (h5 : ∀ j, j < patA.length → 0 < j → ¬ (patA.drop j <+: rep)) :
    ∀ fuel s j, s.length ≤ fuel → 0 < j →
      patA.drop j <+: replaceFuel pat rep fuel s → patA.drop j <+: s := by
  intro fuel
  induction fuel with
  | zero => intro s j _ _ h; exact h
  | succ fuel ih =>
    intro s j hs hj h
    match s with
    | [] => exact h
    | c :: cs =>
      by_cases hble : patA.length ≤ j
      · rw [List.drop_eq_nil_of_le hble]
        exact List.nil_prefix
      · push_neg at hble
        cases hm : pat.isPrefixOf (c :: cs) with
        | true =>
          exfalso
          rw [show replaceFuel pat rep (fuel + 1) (c :: cs) =
              rep ++ replaceFuel pat rep fuel (cs.drop (pat.length - 1)) from by
            simp [replaceFuel, hm]] at h
          by_cases hlen : (patA.drop j).length ≤ rep.length
          · exact h5 j hble hj (List.prefix_of_prefix_length_le h (List.prefix_append _ _) hlen)
          · push_neg at hlen
            have hrp : rep <+: patA.drop j :=
              List.prefix_of_prefix_length_le (List.prefix_append _ _) h (le_of_lt hlen)
            obtain ⟨t, ht⟩ := hrp
            obtain ⟨w, hw⟩ := List.drop_suffix j patA
            exact h4 ⟨w, t, by rw [List.append_assoc, ht, hw]⟩
        | false =>
          rw [replaceFuel_skip pat rep c cs fuel hm] at h
          have hdj : patA.drop j = patA[j] :: patA.drop (j + 1) :=
            List.drop_eq_getElem_cons hble
          rw [hdj] at h ⊢
          rcases List.cons_prefix_cons.mp h with ⟨hc, htl⟩
          have h2 := ih cs (j + 1) (Nat.le_of_succ_le_succ hs) (Nat.succ_pos j) htl
          exact List.cons_prefix_cons.mpr ⟨hc, h2⟩

/-- The scanned pattern does not occur in the output of its own
replacement, under no-overlap side conditions between `pat` and `rep`. -/
theorem replace_no_self (pat rep : List Char) (hpat : pat ≠ [])
    (h1 : ¬ pat <:+: rep)
    (h3 : ∀ k, k < pat.length → 0 < k → ¬ (pat.take k <:+ rep))
    (h4 : ¬ rep <:+: pat)
    (h5 : ∀ j, j < pat.length → 0 < j → ¬ (pat.drop j <+: rep)) :
    ∀ fuel s, s.length ≤ fuel → ¬ pat <:+: replaceFuel pat rep fuel s := by
  intro fuel
  induction fuel with
  | zero =>
    intro s hs h
    have hnil : s = [] := List.eq_nil_of_length_eq_zero (Nat.le_zero.mp hs)
    subst hnil
    simp only [replaceFuel] at h
    simp at h
    exact hpat h
  | succ fuel ih =>
    intro s hs h
    match s with
    | [] =>
      simp only [replaceFuel] at h
      simp at h
      exact hpat h
    | c :: cs =>
      cases hm : pat.isPrefixOf (c :: cs) with
      | true =>
        rw [show replaceFuel pat rep (fuel + 1) (c :: cs) =
            rep ++ replaceFuel pat rep fuel (cs.drop (pat.length - 1)) from by
          simp [replaceFuel, hm]] at h
        rcases infix_append_cases rep pat _ h with h' | h' | ⟨k, hk0, hkl, hts, _⟩
        · exact h1 h'
        · have hd : (cs.drop (pat.length - 1)).length ≤ fuel := by
            have : (cs.drop (pat.length - 1)).length ≤ cs.length := by simp [List.length_drop]
            exact le_trans this (Nat.le_of_succ_le_succ hs)
          exact ih _ hd h'
        · exact h3 k hkl hk0 hts
      | false =>
        rw [replaceFuel_skip pat rep c cs fuel hm] at h
        rcases List.infix_cons_iff.mp h with hpre | htail
        · cases pat with
          | nil => exact hpat rfl
          | cons p0 pr =>
            rcases List.cons_prefix_cons.mp hpre with ⟨hc, htl⟩
            have hkey := dropPrefixKey (p0 :: pr) (p0 :: pr) rep h4 h5 fuel cs 1
              (Nat.le_of_succ_le_succ hs) Nat.one_pos (by simpa using htl)
            have hmt : (p0 :: pr).isPrefixOf (c :: cs) = true :=
              (isPrefixOf_true_iff _ _).mpr
                (List.cons_prefix_cons.mpr ⟨hc, by simpa using hkey⟩)
            simp [hm] at hmt
        · exact ih cs (Nat.le_of_succ_le_succ hs) htail

/-- Replacing `pat` cannot create an occurrence of a different pattern
`patA` that was not there before, under no-overlap side conditions
between `patA` and `rep`. -/
theorem replace_no_create (patA pat rep : List Char)
    (x1 : ¬ patA <:+: rep)
    (x2 : ∀ k, k < patA.length → 0 < k → ¬ (patA.take k <:+ rep))
    (h4 : ¬ rep <:+: patA)
    (h5 : ∀ j, j < patA.length → 0 < j → ¬ (patA.drop j <+: rep)) :
    ∀ fuel s, s.length ≤ fuel → ¬ patA <:+: s → ¬ patA <:+: replaceFuel pat rep fuel s := by
  intro fuel
  induction fuel with
  | zero => intro s _ hns h; exact hns h
  | succ fuel ih =>
    intro s hs hns h
    match s with
    | [] => exact hns h
    | c :: cs =>
      cases hm : pat.isPrefixOf (c :: cs) with
      | true =>
        rw [show replaceFuel pat rep (fuel + 1) (c :: cs) =
            rep ++ replaceFuel pat rep fuel (cs.drop (pat.length - 1)) from by
          simp [replaceFuel, hm]] at h
        rcases infix_append_cases rep patA _ h with h' | h' | ⟨k, hk0, hkl, hts, _⟩
        · exact x1 h'
        · have hd : (cs.drop (pat.length - 1)).length ≤ fuel := by
            have : (cs.drop (pat.length - 1)).length ≤ cs.length := by simp [List.length_drop]
            exact le_trans this (Nat.le_of_succ_le_succ hs)
          refine ih _ hd ?_ h'
          intro hin
          exact hns (hin.trans ((List.drop_suffix _ cs).isInfix.trans
            (List.suffix_cons c cs).isInfix))
        · exact x2 k hkl hk0 hts
      | false =>
        rw [replaceFuel_skip pat rep c cs fuel hm] at h
        rcases List.infix_cons_iff.mp h with hpre | htail
        · cases patA with
          | nil => exact hns List.nil_infix
          | cons a0 ar =>
            rcases List.cons_prefix_cons.mp hpre with ⟨hc, htl⟩
            have hkey := dropPrefixKey (a0 :: ar) pat rep h4 h5 fuel cs 1
              (Nat.le_of_succ_le_succ hs) Nat.one_pos (by simpa using htl)
            exact hns (List.cons_prefix_cons.mpr ⟨hc, by simpa using hkey⟩).isInfix
        · exact ih cs (Nat.le_of_succ_le_succ hs)
            (fun hin => hns (hin.trans (List.suffix_cons c cs).isInfix)) htail

/-- Replacement is the identity on strings without an occurrence of the
pattern. -/
theorem replace_id_of_no_occ (pat rep : List Char) :
    ∀ fuel s, s.length ≤ fuel → ¬ pat <:+: s → replaceFuel pat rep fuel s = s := by
  intro fuel
  induction fuel with
  | zero => intro s _ _; rfl
  | succ fuel ih =>
    intro s hs hno
    match s with
    | [] => rfl
    | c :: cs =>
      cases hm : pat.isPrefixOf (c :: cs) with
      | true => exact absurd ((isPrefixOf_true_iff _ _).mp hm).isInfix hno
      | false =>
        rw [replaceFuel_skip pat rep c cs fuel hm]
        have := ih cs (Nat.le_of_succ_le_succ hs)
          (fun hin => hno (hin.trans (List.suffix_cons c cs).isInfix))
        rw [this]

/-- Unfolding of `pyReplace` at an immediate match: the match is
replaced and scanning continues after it. -/
theorem pyReplace_head_match (p0 : Char) (pr rep rest : List Char) :
    pyReplace (p0 :: pr) rep ((p0 :: pr) ++ rest) = rep ++ pyReplace (p0 :: pr) rep rest := by
  have hpre : (p0 :: pr).isPrefixOf ((p0 :: pr) ++ rest) = true :=
    (isPrefixOf_true_iff _ _).mpr (List.prefix_append _ _)
  show replaceFuel (p0 :: pr) rep (((p0 :: pr) ++ rest).length) (p0 :: (pr ++ rest)) =
    rep ++ pyReplace (p0 :: pr) rep rest
  rw [show ((p0 :: pr) ++ rest).length = (pr ++ rest).length + 1 from by simp]
  rw [show replaceFuel (p0 :: pr) rep ((pr ++ rest).length + 1) (p0 :: (pr ++ rest)) =
      rep ++ replaceFuel (p0 :: pr) rep ((pr ++ rest).length)
        ((pr ++ rest).drop ((p0 :: pr).length - 1)) from by
    simp [replaceFuel, hpre]]
  have hdrop : (pr ++ rest).drop ((p0 :: pr).length - 1) = rest := List.drop_left pr rest
  rw [hdrop]
  exact congrArg (rep ++ ·)
    (replaceFuel_congr _ _ _ _ rest (by simp) (le_refl _))

/-- Scanning for `"hhnk_threedi_tools"` walks through a leading `"hrt"`
unchanged: no occurrence of the pattern can start inside it. -/
theorem pyReplace_strHtt_hrt (x : List Char) :
    pyReplace strP2 strHtt (strHrt ++ x) = strHrt ++ pyReplace strP2 strHtt x := by
  have h1 : strP2.isPrefixOf ('h' :: 'r' :: 't' :: x) = false := by
    simp [strP2, List.isPrefixOf]
  have h2 : strP2.isPrefixOf ('r' :: 't' :: x) = false := by
    simp [strP2, List.isPrefixOf]
  have h3 : strP2.isPrefixOf ('t' :: x) = false := by
    simp [strP2, List.isPrefixOf]
  show replaceFuel strP2 strHtt (x.length + 1 + 1 + 1) ('h' :: 'r' :: 't' :: x) =
    'h' :: 'r' :: 't' :: pyReplace strP2 strHtt x
  rw [replaceFuel_skip strP2 strHtt 'h' ('r' :: 't' :: x) (x.length + 1 + 1) h1]
  rw [replaceFuel_skip strP2 strHtt 'r' ('t' :: x) (x.length + 1) h2]
  rw [replaceFuel_skip strP2 strHtt 't' x x.length h3]
  rfl

/-- The `get_logger` alias rewriting is idempotent: its output contains
no occurrence of either alias key, so running both replacements again
changes nothing. -/
theorem rewriteNameL_idem (n : List Char) : rewriteNameL (rewriteNameL n) = rewriteNameL n := by
  have hnP1r : ¬ strP1 <:+: pyReplace strP1 strHrt n :=
    replace_no_self strP1 strHrt (by decide) (by decide) (by decide) (by decide) (by decide)
      n.length n (le_refl _)
  have hnP1 : ¬ strP1 <:+: rewriteNameL n :=
    replace_no_create strP1 strP2 strHtt (by decide) (by decide) (by decide) (by decide)
      (pyReplace strP1 strHrt n).length (pyReplace strP1 strHrt n) (le_refl _) hnP1r
  have hnP2 : ¬ strP2 <:+: rewriteNameL n :=
    replace_no_self strP2 strHtt (by decide) (by decide) (by decide) (by decide) (by decide)
      (pyReplace strP1 strHrt n).length (pyReplace strP1 strHrt n) (le_refl _)
  show pyReplace strP2 strHtt (pyReplace strP1 strHrt (rewriteNameL n)) = rewriteNameL n
  rw [show pyReplace strP1 strHrt (rewriteNameL n) = rewriteNameL n from
    replace_id_of_no_occ strP1 strHrt (rewriteNameL n).length (rewriteNameL n) (le_refl _) hnP1]
  exact replace_id_of_no_occ strP2 strHtt (rewriteNameL n).length (rewriteNameL n)
    (le_refl _) hnP2

/-- A name starting with the alias key `"hhnk_research_tools"` rewrites
to `"hrt"` followed by the rewriting of the remainder. -/
theorem rewriteNameL_head (rest : List Char) :
    rewriteNameL (strP1 ++ rest) = strHrt ++ rewriteNameL rest := by
  show pyReplace strP2 strHtt (pyReplace strP1 strHrt (strP1 ++ rest)) = _
  rw [show pyReplace strP1 strHrt (strP1 ++ rest) = strHrt ++ pyReplace strP1 strHrt rest from
    pyReplace_head_match 'h'
      ['h', 'n', 'k', '_', 'r', 'e', 's', 'e', 'a', 'r', 'c', 'h', '_', 't', 'o', 'o', 'l', 's']
      strHrt rest]
  exact pyReplace_strHtt_hrt (pyReplace strP1 strHrt rest)

/-! ## Association-list (Python dict) lemmas -/

theorem lookup_setKey_same {α : Type} (k : String) (v : α) :
    ∀ m : List (String × α), lookupKey k (setKey k v m) = some v := by
  intro m
  induction m with
  | nil => simp [setKey, lookupKey]
  | cons p rest ih =>
    by_cases hk : p.1 = k
    · simp [setKey, lookupKey, hk]
    · simp [setKey, lookupKey, hk, ih]

theorem lookup_setKey_other {α : Type} (k k' : String) (v : α) (hne : k' ≠ k) :
    ∀ m : List (String × α), lookupKey k' (setKey k v m) = lookupKey k' m := by
  have hkk : ¬ k = k' := fun h => hne h.symm
  intro m
  induction m with
  | nil => simp [setKey, lookupKey, hkk]
  | cons p rest ih =>
    rcases p with ⟨pk, pv⟩
    by_cases hk : pk = k
    · subst hk
      rw [show setKey pk v ((pk, pv) :: rest) = (pk, v) :: rest from by simp [setKey]]
      show (if pk = k' then some v else lookupKey k' rest) =
        if pk = k' then some pv else lookupKey k' rest
      rw [if_neg hkk, if_neg hkk]
    · rw [show setKey k v ((pk, pv) :: rest) = (pk, pv) :: setKey k v rest from by
        simp [setKey, hk]]
      show (if pk = k' then some pv else lookupKey k' (setKey k v rest)) =
        if pk = k' then some pv else lookupKey k' rest
      rw [ih]

/-! ## Lemmas about the override loop of get_logconfig_dict -/

theorem applyLevelList_lookup_out (lvl : String) (pkg : String) :
    ∀ (pkgs : List String) (ls : List (String × LoggerEntry)), pkg ∉ pkgs →
      lookupKey pkg (applyLevelList lvl pkgs ls) = lookupKey pkg ls := by
  intro pkgs
  induction pkgs with
  | nil => intro ls _; rfl
  | cons p ps ih =>
    intro ls hmem
    have hne : pkg ≠ p := fun h => hmem (h ▸ List.mem_cons_self p ps)
    have hps : pkg ∉ ps := fun h => hmem (List.mem_cons_of_mem p h)
    show lookupKey pkg (applyLevelList lvl ps (setKey p _ ls)) = _
    rw [ih _ hps, lookup_setKey_other p pkg _ hne]

theorem applyLevelList_lookup_in (lvl : String) (pkg : String) :
    ∀ (pkgs : List String) (ls : List (String × LoggerEntry)), pkgs.Nodup → pkg ∈ pkgs →
      lookupKey pkg (applyLevelList lvl pkgs ls) =
        some { level := lvl, handlers := none } := by
  intro pkgs
  induction pkgs with
  | nil => intro ls _ hmem; cases hmem
  | cons p ps ih =>
    intro ls hnd hmem
    rcases List.mem_cons.mp hmem with rfl | hmem'
    · have hout : pkg ∉ ps := (List.nodup_cons.mp hnd).1
      show lookupKey pkg (applyLevelList lvl ps (setKey pkg _ ls)) = _
      rw [applyLevelList_lookup_out lvl pkg ps _ hout, lookup_setKey_same]
    · exact ih _ (List.nodup_cons.mp hnd).2 hmem'

theorem allPkgs_cons_list (lvl : String) (pkgs : List String) (rest : List (String × PyVal)) :
    allPkgs ((lvl, PyVal.pylist pkgs) :: rest) = pkgs ++ allPkgs rest := by
  simp [allPkgs]

theorem loggersFold_lookup_out (pkg : String) :
    ∀ (ld : List (String × PyVal)) (ls : List (String × LoggerEntry)), pkg ∉ allPkgs ld →
      lookupKey pkg (loggersFold ld ls) = lookupKey pkg ls := by
  intro ld
  induction ld with
  | nil => intro ls _; rfl
  | cons e rest ih =>
    intro ls hmem
    match e with
    | (lvl, PyVal.pylist pkgs) =>
      rw [allPkgs_cons_list] at hmem
      have h1 : pkg ∉ pkgs := fun h => hmem (List.mem_append_left _ h)
      have h2 : pkg ∉ allPkgs rest := fun h => hmem (List.mem_append_right _ h)
      show lookupKey pkg (loggersFold rest (applyLevelList lvl pkgs ls)) = _
      rw [ih _ h2, applyLevelList_lookup_out lvl pkg pkgs ls h1]
    | (lvl, PyVal.pystr s) =>
      have h2 : pkg ∉ allPkgs rest := by simpa [allPkgs] using hmem
      exact ih _ h2
    | (lvl, PyVal.pyint n) =>
      have h2 : pkg ∉ allPkgs rest := by simpa [allPkgs] using hmem
      exact ih _ h2

theorem loggersFold_lookup_in (pkg lvl : String) (pkgs : List String) :
    ∀ (ld : List (String × PyVal)) (ls : List (String × LoggerEntry)),
      (allPkgs ld).Nodup → (lvl, PyVal.pylist pkgs) ∈ ld → pkg ∈ pkgs →
      lookupKey pkg (loggersFold ld ls) = some { level := lvl, handlers := none } := by
  intro ld
  induction ld with
  | nil => intro ls _ hmem _; cases hmem
  | cons e rest ih =>
    intro ls hnd hmem hpkg
    rcases List.mem_cons.mp hmem with rfl | hmem'
    · rw [allPkgs_cons_list] at hnd
      rcases List.nodup_append.mp hnd with ⟨hnd1, _, hdisj⟩
      have hout : pkg ∉ allPkgs rest := fun h => hdisj hpkg h
      show lookupKey pkg (loggersFold rest (applyLevelList lvl pkgs ls)) = _
      rw [loggersFold_lookup_out pkg rest _ hout]
      exact applyLevelList_lookup_in lvl pkg pkgs ls hnd1 hpkg
    · match e with
      | (lvl', PyVal.pylist pkgs') =>
        rw [allPkgs_cons_list] at hnd
        exact ih _ (List.nodup_append.mp hnd).2.1 hmem' hpkg
      | (lvl', PyVal.pystr s) =>
        exact ih _ (by simpa [allPkgs] using hnd) hmem' hpkg
      | (lvl', PyVal.pyint n) =>
        exact ih _ (by simpa [allPkgs] using hnd) hmem' hpkg

/-- When the override loop succeeds, its only effect on the dictionary is
the `loggers` table, which becomes `loggersFold` of the input. -/
theorem applyLevelDict_ok :
    ∀ (ld : List (String × PyVal)) (cfg cfg' : LogConfigDict),
      applyLevelDict ld cfg = Except.ok cfg' →
      cfg' = { cfg with loggers := loggersFold ld cfg.loggers } := by
  intro ld
  induction ld with
  | nil =>
    intro cfg cfg' h
    simp [applyLevelDict] at h
    simp [loggersFold, ← h]
  | cons e rest ih =>
    intro cfg cfg' h
    match e with
    | (lvl, PyVal.pylist pkgs) =>
      have h2 := ih { cfg with loggers := applyLevelList lvl pkgs cfg.loggers } cfg' h
      rw [h2]
      rfl
    | (lvl, PyVal.pystr s) => exact absurd h (by simp [applyLevelDict])
    | (lvl, PyVal.pyint n) => exact absurd h (by simp [applyLevelDict])

/-- If any value under a level key is not a list, the override loop
raises the `TypeError`. -/
theorem applyLevelDict_err :
    ∀ (ld : List (String × PyVal)) (cfg : LogConfigDict),
      (∃ e ∈ ld, isPyList e.2 = false) →
      applyLevelDict ld cfg = Except.error "Level_dict should provide lists." := by
  intro ld
  induction ld with
  | nil => intro cfg h; simp at h
  | cons e rest ih =>
    intro cfg h
    match e with
    | (lvl, PyVal.pylist pkgs) =>
      rcases h with ⟨e', he', hbad⟩
      rcases List.mem_cons.mp he' with rfl | hmem
      · simp [isPyList] at hbad
      · exact ih _ ⟨e', hmem, hbad⟩
    | (lvl, PyVal.pystr s) => rfl
    | (lvl, PyVal.pyint n) => rfl

/-- The truthiness shortcut of line 70 is equivalent to running the loop
on the (possibly empty) item list. -/
theorem get_logconfig_dict_unfold (lr : String) (ldOpt : Option (List (String × PyVal)))
    (fp : Option String) :
    get_logconfig_dict lr ldOpt fp =
      (match applyLevelDict (ldOpt.getD []) (baseConfigDict lr) with
       | Except.error e => Except.error e
       | Except.ok cfg1 =>
         if pyTruthyOptStr fp then Except.ok (withFileSink fp cfg1)
         else Except.ok cfg1) := by
  match ldOpt with
  | none => rfl
  | some [] => rfl
  | some (e :: rest) => rfl

/-- The `loggers` table of a successful `get_logconfig_dict` call. -/
theorem get_logconfig_dict_ok_loggers (lr : String) (ldOpt : Option (List (String × PyVal)))
    (fp : Option String) (cfg : LogConfigDict)
    (h : get_logconfig_dict lr ldOpt fp = Except.ok cfg) :
    cfg.loggers = loggersFold (ldOpt.getD []) (baseConfigDict lr).loggers := by
  rw [get_logconfig_dict_unfold] at h
  match hald : applyLevelDict (ldOpt.getD []) (baseConfigDict lr) with
  | Except.error e => rw [hald] at h; cases h
  | Except.ok cfg1 =>
    rw [hald] at h
    have hc1 := applyLevelDict_ok _ _ _ hald
    cases hfp : pyTruthyOptStr fp with
    | true =>
      rw [hfp] at h
      have h2 : withFileSink fp cfg1 = cfg := by simpa using h
      rw [← h2, hc1]
      rfl
    | false =>
      rw [hfp] at h
      have h2 : cfg1 = cfg := by simpa using h
      rw [← h2, hc1]

/-- The handlers table of a successful call with a truthy path. -/
theorem get_logconfig_dict_ok_handlers_some (lr : String)
    (ldOpt : Option (List (String × PyVal))) (p : String) (cfg : LogConfigDict)
    (hp : p ≠ "")
    (h : get_logconfig_dict lr ldOpt (some p) = Except.ok cfg) :
    cfg.handlers = setKey "info_rotating_file_handler" (fileHandlerSink p)
      (baseConfigDict lr).handlers := by
  rw [get_logconfig_dict_unfold] at h
  match hald : applyLevelDict (ldOpt.getD []) (baseConfigDict lr) with
  | Except.error e => rw [hald] at h; cases h
  | Except.ok cfg1 =>
    rw [hald] at h
    have hc1 := applyLevelDict_ok _ _ _ hald
    have hfp : pyTruthyOptStr (some p) = true := by simp [pyTruthyOptStr, hp]
    rw [hfp] at h
    have h2 : withFileSink (some p) cfg1 = cfg := by simpa using h
    rw [← h2, hc1]
    rfl

/-- The handlers table of a successful call without a path. -/
theorem get_logconfig_dict_ok_handlers_none (lr : String)
    (ldOpt : Option (List (String × PyVal))) (cfg : LogConfigDict)
    (h : get_logconfig_dict lr ldOpt none = Except.ok cfg) :
    cfg.handlers = (baseConfigDict lr).handlers := by
  rw [get_logconfig_dict_unfold] at h
  match hald : applyLevelDict (ldOpt.getD []) (baseConfigDict lr) with
  | Except.error e => rw [hald] at h; cases h
  | Except.ok cfg1 =>
    rw [hald] at h
    have h2 : cfg1 = cfg := by simpa [pyTruthyOptStr] using h
    have hc1 := applyLevelDict_ok _ _ _ hald
    rw [← h2, hc1]

/-! ## Claim C5 -/

/-- Claim C5: for every `level_dict` in which some level key's value is
not a list, `get_logconfig_dict` raises the `TypeError` (returns no
descriptor), and the failure happens before any global logging state is
touched: `set_default_logconfig` propagates the same error without
producing a new global state. -/
theorem logconfig_nonlist_raises (lr : String) (ld : List (String × PyVal))
    (fp : Option String) (g : GlobalLogState)
    (hbad : ∃ e ∈ ld, isPyList e.2 = false) :
    get_logconfig_dict lr (some ld) fp = Except.error "Level_dict should provide lists." ∧
    set_default_logconfig lr (some ld) fp g =
      Except.error "Level_dict should provide lists." := by
  have herr : applyLevelDict ld (baseConfigDict lr) =
      Except.error "Level_dict should provide lists." :=
    applyLevelDict_err ld _ hbad
  have h1 : get_logconfig_dict lr (some ld) fp =
      Except.error "Level_dict should provide lists." := by
    rw [get_logconfig_dict_unfold]
    show (match applyLevelDict ld (baseConfigDict lr) with
          | Except.error e => Except.error e
          | Except.ok cfg1 =>
            if pyTruthyOptStr fp then Except.ok (withFileSink fp cfg1)
            else Except.ok cfg1) = _
    rw [herr]
  refine ⟨h1, ?_⟩
  show (match get_logconfig_dict lr (some ld) fp with
        | Except.error e => Except.error e
        | Except.ok cfg => Except.ok (dictConfigApply cfg g)) = _
  rw [h1]

/-- Witness for C5 at a concrete bad mapping. -/
theorem logconfig_nonlist_raises_witness :
    get_logconfig_dict "WARNING" (some [("INFO", PyVal.pystr "app")]) none =
      Except.error "Level_dict should provide lists." ∧
    set_default_logconfig "WARNING" (some [("INFO", PyVal.pystr "app")]) none
      { appliedConfig := none } =
      Except.error "Level_dict should provide lists." :=
  logconfig_nonlist_raises "WARNING" [("INFO", PyVal.pystr "app")] none
    { appliedConfig := none } (by decide)

/-! ## Claim C6 -/

/-- Claim C6: for every `get_logconfig_dict` call, a supplied (nonempty)
log file path puts the `info_rotating_file_handler` entry in the handlers
table — a `TimedRotatingFileHandler` with `when = "D"`, 7 retained
backups, level INFO, for that path — and with no path supplied that key is
entirely absent from the handlers table. -/
theorem logconfig_file_sink_iff_path :
    (∀ (lr : String) (ldOpt : Option (List (String × PyVal))) (p : String)
        (cfg : LogConfigDict),
      get_logconfig_dict lr ldOpt (some p) = Except.ok cfg → p ≠ "" →
      lookupKey "info_rotating_file_handler" cfg.handlers = some (fileHandlerSink p)) ∧
    (∀ (lr : String) (ldOpt : Option (List (String × PyVal))) (cfg : LogConfigDict),
      get_logconfig_dict lr ldOpt none = Except.ok cfg →
      lookupKey "info_rotating_file_handler" cfg.handlers = none) := by
  constructor
  · intro lr ldOpt p cfg h hp
    rw [get_logconfig_dict_ok_handlers_some lr ldOpt p cfg hp h]
    exact lookup_setKey_same _ _ _
  · intro lr ldOpt cfg h
    rw [get_logconfig_dict_ok_handlers_none lr ldOpt cfg h]
    simp [baseConfigDict, lookupKey]

/-- Witness for C6 at concrete calls with and without a path. -/
theorem logconfig_file_sink_iff_path_witness :
    lookupKey "info_rotating_file_handler"
      (withFileSink (some "/tmp/x.log") (baseConfigDict "WARNING")).handlers =
      some (fileHandlerSink "/tmp/x.log") ∧
    lookupKey "info_rotating_file_handler" (baseConfigDict "WARNING").handlers = none := by
  constructor
  · exact logconfig_file_sink_iff_path.1 "WARNING" none "/tmp/x.log"
      (withFileSink (some "/tmp/x.log") (baseConfigDict "WARNING")) (by decide) (by decide)
  · exact logconfig_file_sink_iff_path.2 "WARNING" none (baseConfigDict "WARNING") (by decide)

/-! ## Claim C8 -/

/-- Claim C8 is false as stated: an override namespace equal to `""`
replaces the root entry wholesale (its level is no longer the given root
level and its handlers list is gone), and a namespace listed under two
level keys ends up with the later key's level, not each listed one. -/
theorem logconfig_reflects_cex :
    (get_logconfig_dict "INFO" (some [("DEBUG", PyVal.pylist [""])]) none).map
        (fun cfg => lookupKey "" cfg.loggers) =
      Except.ok (some { level := "DEBUG", handlers := none }) ∧
    ("DEBUG" : String) ≠ "INFO" ∧
    (get_logconfig_dict "INFO"
        (some [("DEBUG", PyVal.pylist ["app"]), ("INFO", PyVal.pylist ["app"])]) none).map
        (fun cfg => lookupKey "app" cfg.loggers) =
      Except.ok (some { level := "INFO", handlers := none }) ∧
    ("INFO" : String) ≠ "DEBUG" := by
  refine ⟨by decide, by decide, by decide, by decide⟩

/-- Claim C8, amended: for inputs whose override namespaces are nonempty
and listed only once, the descriptor exactly reflects the inputs — the
root entry keeps the given root level and its two console sinks, every
listed namespace gets its own entry with exactly its level key, and every
sink name referenced by the root entry's handlers list is a key of the
handlers table. -/
theorem logconfig_reflects_inputs_amended (lr : String) (ld : List (String × PyVal))
    (fp : Option String) (cfg : LogConfigDict)
    (hok : get_logconfig_dict lr (some ld) fp = Except.ok cfg)
    (hroot : ∀ p ∈ allPkgs ld, p ≠ "")
    (hnd : (allPkgs ld).Nodup) :
    lookupKey "" cfg.loggers =
      some { level := lr, handlers := some ["debug_console_handler", "stderr"] } ∧
    (∀ lvl pkgs, (lvl, PyVal.pylist pkgs) ∈ ld → ∀ pkg ∈ pkgs,
      lookupKey pkg cfg.loggers = some { level := lvl, handlers := none }) ∧
    (∀ hn ∈ ["debug_console_handler", "stderr"], lookupKey hn cfg.handlers ≠ none) := by
  have hlog := get_logconfig_dict_ok_loggers lr (some ld) fp cfg hok
  simp only [Option.getD_some] at hlog
  refine ⟨?_, ?_, ?_⟩
  · rw [hlog]
    have hout : "" ∉ allPkgs ld := fun hmem => hroot "" hmem rfl
    rw [loggersFold_lookup_out "" ld _ hout]
    rfl
  · intro lvl pkgs hmem pkg hpkg
    rw [hlog]
    exact loggersFold_lookup_in pkg lvl pkgs ld _ hnd hmem hpkg
  · intro hn hmem
    have hbase : lookupKey hn (baseConfigDict lr).handlers ≠ none := by
      rcases List.mem_cons.mp hmem with rfl | hmem'
      · simp [baseConfigDict, lookupKey]
      · rcases List.mem_cons.mp hmem' with rfl | hmem''
        · simp [baseConfigDict, lookupKey]
        · cases hmem''
    match fp with
    | none =>
      rw [get_logconfig_dict_ok_handlers_none lr (some ld) cfg hok]
      exact hbase
    | some p =>
      by_cases hp : p = ""
      · subst hp
        have : get_logconfig_dict lr (some ld) (some "") =
            get_logconfig_dict lr (some ld) none := by
          rw [get_logconfig_dict_unfold, get_logconfig_dict_unfold]
          simp [pyTruthyOptStr]
        rw [this] at hok
        rw [get_logconfig_dict_ok_handlers_none lr (some ld) cfg hok]
        exact hbase
      · rw [get_logconfig_dict_ok_handlers_some lr (some ld) p cfg hp hok]
        have hne : hn ≠ "info_rotating_file_handler" := by
          rcases List.mem_cons.mp hmem with rfl | hmem'
          · decide
          · rcases List.mem_cons.mp hmem' with rfl | hmem''
            · decide
            · cases hmem''
        rw [lookup_setKey_other _ _ _ hne]
        exact hbase

/-- Witness for C8 at level_root = INFO and a single DEBUG override. -/
theorem logconfig_reflects_witness :
    lookupKey "" (withOverride.loggers) =
      some { level := "INFO", handlers := some ["debug_console_handler", "stderr"] } ∧
    (∀ lvl pkgs, (lvl, PyVal.pylist pkgs) ∈
        [("DEBUG", PyVal.pylist ["app"])] → ∀ pkg ∈ pkgs,
      lookupKey pkg (withOverride.loggers) = some { level := lvl, handlers := none }) ∧
    (∀ hn ∈ ["debug_console_handler", "stderr"],
      lookupKey hn (withOverride.handlers) ≠ none) :=
  logconfig_reflects_inputs_amended "INFO" [("DEBUG", PyVal.pylist ["app"])] none
    withOverride (by decide) (by decide) (by decide)

/-! ## Claim C10 -/

/-- The traced override loop returns its input items untouched. -/
theorem applyLevelDictTrace_snd :
    ∀ (ld : List (String × PyVal)) (cfg : LogConfigDict),
      (applyLevelDictTrace ld cfg).2 = ld := by
  intro ld
  induction ld with
  | nil => intro cfg; rfl
  | cons e rest ih =>
    intro cfg
    match e with
    | (lvl, PyVal.pylist pkgs) => simp [applyLevelDictTrace, ih]
    | (lvl, PyVal.pystr s) => rfl
    | (lvl, PyVal.pyint n) => rfl

/-- The traced override loop computes the same result as the plain one. -/
theorem applyLevelDictTrace_fst :
    ∀ (ld : List (String × PyVal)) (cfg : LogConfigDict),
      (applyLevelDictTrace ld cfg).1 = applyLevelDict ld cfg := by
  intro ld
  induction ld with
  | nil => intro cfg; rfl
  | cons e rest ih =>
    intro cfg
    match e with
    | (lvl, PyVal.pylist pkgs) => simp [applyLevelDictTrace, applyLevelDict, ih]
    | (lvl, PyVal.pystr s) => rfl
    | (lvl, PyVal.pyint n) => rfl

/-- Claim C10: `get_logconfig_dict` is deterministic and side-effect
free — the call leaves the caller's `level_dict` and the process-wide
logging state unchanged, its result is a function of its arguments alone
(independent of the global state), so two calls with equal arguments
return equal descriptors. -/
theorem logconfig_pure_deterministic (lr : String)
    (ld : Option (List (String × PyVal))) (fp : Option String) (g : GlobalLogState) :
    (get_logconfig_dict_call lr ld fp g).2.1 = ld ∧
    (get_logconfig_dict_call lr ld fp g).2.2 = g ∧
    (get_logconfig_dict_call lr ld fp g).1 = get_logconfig_dict lr ld fp ∧
    (∀ g' : GlobalLogState,
      (get_logconfig_dict_call lr ld fp g').1 = (get_logconfig_dict_call lr ld fp g).1) := by
  have hcall : ∀ g0 : GlobalLogState,
      get_logconfig_dict_call lr ld fp g0 = (get_logconfig_dict lr ld fp, ld, g0) := by
    intro g0
    rw [get_logconfig_dict_unfold]
    match ld with
    | none =>
      show (if pyTruthyOptStr fp then
              (Except.ok (withFileSink fp (baseConfigDict lr)),
               (none : Option (List (String × PyVal))), g0)
            else (Except.ok (baseConfigDict lr), none, g0)) =
           ((if pyTruthyOptStr fp then Except.ok (withFileSink fp (baseConfigDict lr))
             else Except.ok (baseConfigDict lr)), none, g0)
      cases pyTruthyOptStr fp <;> rfl
    | some [] =>
      show (if pyTruthyOptStr fp then
              (Except.ok (withFileSink fp (baseConfigDict lr)),
               some ([] : List (String × PyVal)), g0)
            else (Except.ok (baseConfigDict lr), some [], g0)) =
           ((if pyTruthyOptStr fp then Except.ok (withFileSink fp (baseConfigDict lr))
             else Except.ok (baseConfigDict lr)), some [], g0)
      cases pyTruthyOptStr fp <;> rfl
    | some (e :: rest) =>
      have htr1 := applyLevelDictTrace_fst (e :: rest) (baseConfigDict lr)
      have htr2 := applyLevelDictTrace_snd (e :: rest) (baseConfigDict lr)
      show (match (applyLevelDictTrace (e :: rest) (baseConfigDict lr)).1 with
            | Except.error er =>
                (Except.error er,
                 some (applyLevelDictTrace (e :: rest) (baseConfigDict lr)).2, g0)
            | Except.ok cfg1 =>
                if pyTruthyOptStr fp then
                  (Except.ok (withFileSink fp cfg1),
                   some (applyLevelDictTrace (e :: rest) (baseConfigDict lr)).2, g0)
                else
                  (Except.ok cfg1,
                   some (applyLevelDictTrace (e :: rest) (baseConfigDict lr)).2, g0)) = _
      rw [htr1, htr2]
      simp only [Option.getD_some]
      cases applyLevelDict (e :: rest) (baseConfigDict lr) with
      | error er => rfl
      | ok cfg1 => cases pyTruthyOptStr fp <;> rfl
  refine ⟨by rw [hcall g], by rw [hcall g], by rw [hcall g], fun g' => by rw [hcall g', hcall g]⟩

/-! ## Handler-list lemmas -/

theorem console_isStream (h : Handler) (hc : isConsole h = true) :
    isStreamHandlerClass h.kind = true := by
  cases hk : h.kind <;> simp [isConsole, hk, isStreamHandlerClass] at hc ⊢

theorem file_isStream (k : HKind) (hf : isFileHandlerClass k = true) :
    isStreamHandlerClass k = true := by
  cases k <;> simp [isFileHandlerClass, isStreamHandlerClass] at hf ⊢

theorem stream_not_console_is_file (h : Handler)
    (hs : isStreamHandlerClass h.kind = true) (hc : isConsole h = false) :
    isFileHandlerClass h.kind = true := by
  cases hk : h.kind <;>
    simp [isConsole, hk, isStreamHandlerClass, isFileHandlerClass] at hs hc ⊢

theorem not_stream_of_not_console_not_file (h : Handler)
    (hc : isConsole h = false) (hf : isFileHandlerClass h.kind = false) :
    isStreamHandlerClass h.kind = false := by
  cases hk : h.kind <;>
    simp [isConsole, hk, isStreamHandlerClass, isFileHandlerClass] at hc hf ⊢

theorem isConsole_setFmt (h : Handler) (x : Option (String × String)) :
    isConsole { h with formatter := x } = isConsole h := rfl

/-- The scan finds nothing iff no handler is a `StreamHandler` instance. -/
theorem updateFirstStreamFmt_none (f d : String) :
    ∀ hs : List Handler, (∀ h ∈ hs, isStreamHandlerClass h.kind = false) →
      updateFirstStreamFmt f d hs = none := by
  intro hs
  induction hs with
  | nil => intro _; rfl
  | cons h rest ih =>
    intro hall
    have hh : isStreamHandlerClass h.kind = false := hall h (List.mem_cons_self h rest)
    have hrest := ih (fun x hx => hall x (List.mem_cons_of_mem h hx))
    simp [updateFirstStreamFmt, hh, hrest]

/-- The scan updates exactly the first `StreamHandler` instance. -/
theorem updateFirstStreamFmt_split (f d : String) :
    ∀ (a : List Handler) (h : Handler) (b : List Handler),
      (∀ x ∈ a, isStreamHandlerClass x.kind = false) →
      isStreamHandlerClass h.kind = true →
      updateFirstStreamFmt f d (a ++ h :: b) =
        some (a ++ { h with formatter := some (f, d) } :: b) := by
  intro a
  induction a with
  | nil =>
    intro h b _ hh
    simp [updateFirstStreamFmt, hh]
  | cons x a' ih =>
    intro h b hall hh
    have hx : isStreamHandlerClass x.kind = false := hall x (List.mem_cons_self x a')
    have := ih h b (fun y hy => hall y (List.mem_cons_of_mem x hy)) hh
    simp [updateFirstStreamFmt, hx, this]

/-- Any handler list containing a `StreamHandler` instance splits at its
first one. -/
theorem firstStreamSplit :
    ∀ hs : List Handler, (∃ h ∈ hs, isStreamHandlerClass h.kind = true) →
      ∃ a h b, hs = a ++ h :: b ∧ (∀ x ∈ a, isStreamHandlerClass x.kind = false) ∧
        isStreamHandlerClass h.kind = true := by
  intro hs
  induction hs with
  | nil => intro h; simp at h
  | cons x rest ih =>
    intro hex
    cases hx : isStreamHandlerClass x.kind with
    | true => exact ⟨[], x, rest, rfl, by simp, hx⟩
    | false =>
      have hex' : ∃ h ∈ rest, isStreamHandlerClass h.kind = true := by
        rcases hex with ⟨h, hmem, hh⟩
        rcases List.mem_cons.mp hmem with rfl | hmem'
        · rw [hx] at hh; cases hh
        · exact ⟨h, hmem', hh⟩
      rcases ih hex' with ⟨a, h, b, heq, hall, hh⟩
      exact ⟨x :: a, h, b, by rw [heq]; rfl, by
        intro y hy
        rcases List.mem_cons.mp hy with rfl | hy'
        · exact hx
        · exact hall y hy', hh⟩

/-- A handler list with exactly one console sink splits at it. -/
theorem firstConsoleSplit :
    ∀ hs : List Handler, consoleCount hs = 1 →
      ∃ a c b, hs = a ++ c :: b ∧ isConsole c = true ∧
        (∀ x ∈ a, isConsole x = false) ∧ consoleCount b = 0 := by
  intro hs
  induction hs with
  | nil => intro h; simp [consoleCount] at h
  | cons x rest ih =>
    intro hone
    cases hx : isConsole x with
    | true =>
      have hrest : consoleCount rest = 0 := by
        have := hone
        simp [consoleCount, List.countP_cons, hx] at this
        simpa [consoleCount] using this
      exact ⟨[], x, rest, rfl, hx, by simp, hrest⟩
    | false =>
      have hrest : consoleCount rest = 1 := by
        have := hone
        simpa [consoleCount, List.countP_cons, hx] using this
      rcases ih hrest with ⟨a, c, b, heq, hc, hall, hb⟩
      exact ⟨x :: a, c, b, by rw [heq]; rfl, hc, by
        intro y hy
        rcases List.mem_cons.mp hy with rfl | hy'
        · exact hx
        · exact hall y hy', hb⟩

theorem consoleCount_eq_zero (l : List Handler) :
    consoleCount l = 0 ↔ ∀ x ∈ l, isConsole x = false := by
  simp [consoleCount, List.countP_eq_zero]

theorem consoleCount_append (a b : List Handler) :
    consoleCount (a ++ b) = consoleCount a + consoleCount b :=
  List.countP_append _ _ _

theorem consoleCount_cons (x : Handler) (l : List Handler) :
    consoleCount (x :: l) = consoleCount l + if isConsole x then 1 else 0 :=
  List.countP_cons _ _ _

/-! ## Claim C2 -/

/-- Claim C2 is false as stated: on a handle whose only sink is
file-backed, two calls of the console-sink helper update that file sink's
formatter (a `FileHandler` is a `StreamHandler` instance) and leave zero
console sinks attached, not exactly one. -/
theorem streamhandler_format_file_only_cex :
    consoleCount ((_add_or_update_streamhandler_format
      (_add_or_update_streamhandler_format lgFileOnly LOGFORMAT "%H:%M")
      LOGFORMAT "%H:%M").handlers) = 0 ∧ (0 : Nat) ≠ 1 := by
  refine ⟨by decide, by decide⟩

/-- Claim C2, amended: for every logger handle with no file-backed sink
and at most one console sink, calling the console-sink helper twice in
succession with the same pattern leaves exactly one console sink on the
handle, carrying that pattern; and (unconditionally) the helper never
adds a sink when a console sink already exists. -/
theorem streamhandler_format_idem_amended (lg : PyLogger) (f d : String)
    (hnofile : ∀ h ∈ lg.handlers, isFileHandlerClass h.kind = false)
    (hone : consoleCount lg.handlers ≤ 1) :
    (consoleCount ((_add_or_update_streamhandler_format
        (_add_or_update_streamhandler_format lg f d) f d).handlers) = 1 ∧
     ∀ h ∈ (_add_or_update_streamhandler_format
        (_add_or_update_streamhandler_format lg f d) f d).handlers,
        isConsole h = true → h.formatter = some (f, d)) ∧
    (∀ (lg' : PyLogger) (f' d' : String), 1 ≤ consoleCount lg'.handlers →
      consoleCount ((_add_or_update_streamhandler_format lg' f' d').handlers) =
        consoleCount lg'.handlers) := by
  have huniv : ∀ (lg' : PyLogger) (f' d' : String), 1 ≤ consoleCount lg'.handlers →
      consoleCount ((_add_or_update_streamhandler_format lg' f' d').handlers) =
        consoleCount lg'.handlers := by
    intro lg' f' d' hge
    have hex : ∃ h ∈ lg'.handlers, isConsole h = true := by
      have hpos : 0 < List.countP isConsole lg'.handlers := by
        have : (0 : Nat) < 1 := Nat.zero_lt_one
        exact lt_of_lt_of_le this hge
      exact List.countP_pos_iff.mp hpos
    rcases hex with ⟨h0, hmem, hc⟩
    rcases firstStreamSplit lg'.handlers ⟨h0, hmem, console_isStream h0 hc⟩ with
      ⟨a, h1, b, heq, hall, hs1⟩
    unfold _add_or_update_streamhandler_format
    rw [heq, updateFirstStreamFmt_split f' d' a h1 b hall hs1]
    simp [consoleCount_append, consoleCount_cons, isConsole_setFmt]
  refine ⟨?_, huniv⟩
  rcases Nat.lt_or_ge (consoleCount lg.handlers) 1 with h0 | h1cnt
  · -- no console sink at all: the first call attaches one, the second updates it
    have hzero : consoleCount lg.handlers = 0 := Nat.lt_one_iff.mp h0
    have hnc : ∀ x ∈ lg.handlers, isConsole x = false := (consoleCount_eq_zero _).mp hzero
    have hns : ∀ x ∈ lg.handlers, isStreamHandlerClass x.kind = false :=
      fun x hx => not_stream_of_not_console_not_file x (hnc x hx) (hnofile x hx)
    have h1 : _add_or_update_streamhandler_format lg f d =
        { lg with handlers := lg.handlers ++ [mkStreamHandler f d] } := by
      unfold _add_or_update_streamhandler_format
      rw [updateFirstStreamFmt_none f d lg.handlers hns]
    have h2 : _add_or_update_streamhandler_format
        { lg with handlers := lg.handlers ++ [mkStreamHandler f d] } f d =
        { lg with handlers := lg.handlers ++
            [{ mkStreamHandler f d with formatter := some (f, d) }] } := by
      unfold _add_or_update_streamhandler_format
      rw [show ({ lg with handlers := lg.handlers ++ [mkStreamHandler f d] } :
          PyLogger).handlers = lg.handlers ++ mkStreamHandler f d :: [] from rfl]
      rw [updateFirstStreamFmt_split f d lg.handlers (mkStreamHandler f d) [] hns rfl]
    rw [h1, h2]
    constructor
    · show consoleCount (lg.handlers ++
        [{ mkStreamHandler f d with formatter := some (f, d) }]) = 1
      rw [consoleCount_append, hzero]
      rfl
    · intro h hmem _
      rcases List.mem_append.mp hmem with hm | hm
      · exact absurd (hnc h hm) (by simp_all)
      · rcases List.mem_singleton.mp hm with rfl
        rfl
  · -- exactly one console sink: both calls update it in place
    have hcnt : consoleCount lg.handlers = 1 := Nat.le_antisymm hone h1cnt
    rcases firstConsoleSplit lg.handlers hcnt with ⟨a, c, b, heq, hc, halla, hb⟩
    have hnsa : ∀ x ∈ a, isStreamHandlerClass x.kind = false := by
      intro x hx
      have hxmem : x ∈ lg.handlers := by rw [heq]; exact List.mem_append_left _ hx
      exact not_stream_of_not_console_not_file x (halla x hx) (hnofile x hxmem)
    have hcs : isStreamHandlerClass c.kind = true := console_isStream c hc
    have h1 : _add_or_update_streamhandler_format lg f d =
        { lg with handlers := a ++ { c with formatter := some (f, d) } :: b } := by
      unfold _add_or_update_streamhandler_format
      rw [heq, updateFirstStreamFmt_split f d a c b hnsa hcs]
    have h2 : _add_or_update_streamhandler_format
        { lg with handlers := a ++ { c with formatter := some (f, d) } :: b } f d =
        { lg with handlers := a ++ { c with formatter := some (f, d) } :: b } := by
      unfold _add_or_update_streamhandler_format
      rw [show ({ lg with handlers := a ++ { c with formatter := some (f, d) } :: b } :
          PyLogger).handlers = a ++ { c with formatter := some (f, d) } :: b from rfl]
      rw [updateFirstStreamFmt_split f d a { c with formatter := some (f, d) } b hnsa hcs]
    rw [h1, h2]
    constructor
    · show consoleCount (a ++ { c with formatter := some (f, d) } :: b) = 1
      rw [consoleCount_append, consoleCount_cons, (consoleCount_eq_zero a).mpr halla, hb]
      rw [show isConsole { c with formatter := some (f, d) } = true from hc]
      rfl
    · intro h hmem _
      rcases List.mem_append.mp hmem with hm | hm
      · exact absurd (halla h hm) (by simp_all)
      · rcases List.mem_cons.mp hm with rfl | hm'
        · rfl
        · exact absurd ((consoleCount_eq_zero b).mp hb h hm') (by simp_all)

/-- Witness for the amended C2 at a fresh handle with no sinks. -/
theorem streamhandler_format_idem_witness :
    (consoleCount ((_add_or_update_streamhandler_format
        (_add_or_update_streamhandler_format lgEmpty LOGFORMAT "%H:%M")
        LOGFORMAT "%H:%M").handlers) = 1 ∧
     ∀ h ∈ (_add_or_update_streamhandler_format
        (_add_or_update_streamhandler_format lgEmpty LOGFORMAT "%H:%M")
        LOGFORMAT "%H:%M").handlers,
        isConsole h = true → h.formatter = some (LOGFORMAT, "%H:%M")) ∧
    (∀ (lg' : PyLogger) (f' d' : String), 1 ≤ consoleCount lg'.handlers →
      consoleCount ((_add_or_update_streamhandler_format lg' f' d').handlers) =
        consoleCount lg'.handlers) :=
  streamhandler_format_idem_amended lgEmpty LOGFORMAT "%H:%M" (by decide) (by decide)

/-! ## Claim C9 -/

/-- Claim C9: on a handle whose sinks include a file-backed sink but no
console sink, the console-sink helper replaces the formatter of the first
file-backed sink in place and attaches nothing: the sink count is
unchanged and no console sink appears (the scan's `isinstance` check
matches file-backed sinks because `FileHandler` subclasses
`StreamHandler`). -/
theorem streamhandler_updates_file_sink (lg : PyLogger) (f d : String)
    (hfile : ∃ h ∈ lg.handlers, isFileHandlerClass h.kind = true)
    (hnocon : ∀ h ∈ lg.handlers, isConsole h = false) :
    (_add_or_update_streamhandler_format lg f d).handlers.length = lg.handlers.length ∧
    (∀ h ∈ (_add_or_update_streamhandler_format lg f d).handlers, isConsole h = false) ∧
    ∃ a h b, lg.handlers = a ++ h :: b ∧
      (∀ x ∈ a, isStreamHandlerClass x.kind = false) ∧
      isFileHandlerClass h.kind = true ∧
      (_add_or_update_streamhandler_format lg f d).handlers =
        a ++ { h with formatter := some (f, d) } :: b := by
  rcases hfile with ⟨h0, hm0, hf0⟩
  rcases firstStreamSplit lg.handlers ⟨h0, hm0, file_isStream _ hf0⟩ with
    ⟨a, h1, b, heq, hall, hs1⟩
  have hmem1 : h1 ∈ lg.handlers := by
    rw [heq]; exact List.mem_append_right _ (List.mem_cons_self _ _)
  have hfile1 : isFileHandlerClass h1.kind = true :=
    stream_not_console_is_file h1 hs1 (hnocon h1 hmem1)
  have hres : (_add_or_update_streamhandler_format lg f d).handlers =
      a ++ { h1 with formatter := some (f, d) } :: b := by
    unfold _add_or_update_streamhandler_format
    rw [heq, updateFirstStreamFmt_split f d a h1 b hall hs1]
  refine ⟨?_, ?_, a, h1, b, heq, hall, hfile1, hres⟩
  · rw [hres, heq]; simp
  · intro h hmem
    rw [hres] at hmem
    rcases List.mem_append.mp hmem with hm | hm
    · exact hnocon h (by rw [heq]; exact List.mem_append_left _ hm)
    · rcases List.mem_cons.mp hm with rfl | hm'
      · rw [isConsole_setFmt]
        exact hnocon h1 hmem1
      · exact hnocon h (by
          rw [heq]; exact List.mem_append_right _ (List.mem_cons_of_mem _ hm'))

/-- Witness for C9 at a handle holding exactly one rotating file sink. -/
theorem streamhandler_updates_file_sink_witness :
    (_add_or_update_streamhandler_format lgFileOnly LOGFORMAT "%H:%M").handlers.length =
      lgFileOnly.handlers.length ∧
    (∀ h ∈ (_add_or_update_streamhandler_format lgFileOnly LOGFORMAT "%H:%M").handlers,
      isConsole h = false) ∧
    ∃ a h b, lgFileOnly.handlers = a ++ h :: b ∧
      (∀ x ∈ a, isStreamHandlerClass x.kind = false) ∧
      isFileHandlerClass h.kind = true ∧
      (_add_or_update_streamhandler_format lgFileOnly LOGFORMAT "%H:%M").handlers =
        a ++ { h with formatter := some (LOGFORMAT, "%H:%M") } :: b :=
  streamhandler_updates_file_sink lgFileOnly LOGFORMAT "%H:%M" (by decide) (by decide)

/-! ## Claim C1 -/

/-- Claim C1 (evidence of the code bug): when the same path is passed
twice as a Python `str`, the duplicate-removal scan never fires — line
150 compares `Path(handler.stream.name) == filepath`, and a `Path` never
equals a `str` — so two file sinks for the same path end up attached;
passing the same path as a `Path` object removes the first sink as the
docstring promises. -/
theorem add_file_handler_str_path_duplicate :
    fileSinksAt "/tmp/app.log"
      (add_file_handler
        (add_file_handler lgEmpty (PyPathArg.ofStr "/tmp/app.log") "a" none LOGFORMAT
          "%Y-%m-%d %H:%M:%S" (10 * 1024 * 1024) 5 false false)
        (PyPathArg.ofStr "/tmp/app.log") "a" none LOGFORMAT "%Y-%m-%d %H:%M:%S"
        (10 * 1024 * 1024) 5 false false) = 2 ∧
    fileSinksAt "/tmp/app.log"
      (add_file_handler
        (add_file_handler lgEmpty (PyPathArg.ofPath "/tmp/app.log") "a" none LOGFORMAT
          "%Y-%m-%d %H:%M:%S" (10 * 1024 * 1024) 5 false false)
        (PyPathArg.ofPath "/tmp/app.log") "a" none LOGFORMAT "%Y-%m-%d %H:%M:%S"
        (10 * 1024 * 1024) 5 false false) = 1 := by
  refine ⟨by decide, by decide⟩

/-! ## Claim C3 -/

/-- Claim C3 (evidence of the code bug): the `rotate` branch of lines
154-157 is inverted — `rotate = True` yields the plain `FileHandler`,
while `rotate = False` yields the size-rotating handler with the
documented defaults of 10 MiB per file and 5 retained backups. -/
theorem add_file_handler_rotate_branch_swapped :
    ((add_file_handler lgEmpty (PyPathArg.ofPath "/tmp/app.log") "a" none LOGFORMAT
        "%Y-%m-%d %H:%M:%S" (10 * 1024 * 1024) 5 true false).handlers.getLast?).map
      Handler.kind = some HKind.file ∧
    ((add_file_handler lgEmpty (PyPathArg.ofPath "/tmp/app.log") "a" none LOGFORMAT
        "%Y-%m-%d %H:%M:%S" (10 * 1024 * 1024) 5 false false).handlers.getLast?).map
      Handler.kind = some HKind.rotatingFile ∧
    ((add_file_handler lgEmpty (PyPathArg.ofPath "/tmp/app.log") "a" none LOGFORMAT
        "%Y-%m-%d %H:%M:%S" (10 * 1024 * 1024) 5 false false).handlers.getLast?).map
      Handler.maxBytes = some 10485760 ∧
    ((add_file_handler lgEmpty (PyPathArg.ofPath "/tmp/app.log") "a" none LOGFORMAT
        "%Y-%m-%d %H:%M:%S" (10 * 1024 * 1024) 5 false false).handlers.getLast?).map
      Handler.backupCount = some 5 := by
  refine ⟨by decide, by decide, by decide, by decide⟩

/-! ## Claim C7 -/

/-- Claim C7 is false as stated: on a handle with no explicit level
(`NOTSET`) under an ancestor at WARNING, the effective level is 30, but
the new file sink's level is set from `logger.level`, i.e. 0 — the code
does not resolve level inheritance. -/
theorem add_file_handler_level_cex :
    getEffectiveLevel { level := 0, ancestorLevels := [30], handlers := [] } = 30 ∧
    ((add_file_handler { level := 0, ancestorLevels := [30], handlers := [] }
        (PyPathArg.ofPath "/tmp/app.log") "a" none LOGFORMAT "%Y-%m-%d %H:%M:%S"
        (10 * 1024 * 1024) 5 false false).handlers.getLast?).map Handler.level =
      some 0 ∧
    (0 : Nat) ≠ 30 := by
  refine ⟨by decide, by decide, by decide⟩

/-- Claim C7, amended: when no explicit file level is given, the new file
sink's level equals the handle's own level attribute (which may be
`NOTSET`), and this coincides with the effective level exactly when the
handle has an explicitly set level. -/
theorem add_file_handler_level_own_amended (lg : PyLogger) (fp : PyPathArg)
    (fm f d : String) (mb bc : Nat) (rot lf : Bool) :
    ∃ fh : Handler,
      (add_file_handler lg fp fm none f d mb bc rot lf).handlers.getLast? = some fh ∧
      fh.level = lg.level ∧
      (lg.level ≠ 0 → fh.level = getEffectiveLevel lg) := by
  refine ⟨newFileHandler lg fp fm none f d mb bc rot lf, ?_, ?_, ?_⟩
  · show (scanRemoveSkip _ lg.handlers ++ [newFileHandler lg fp fm none f d mb bc rot lf]).getLast? = _
    exact List.getLast?_concat _
  · cases rot <;> cases lf <;> rfl
  · intro h0
    have hlev : (newFileHandler lg fp fm none f d mb bc rot lf).level = lg.level := by
      cases rot <;> cases lf <;> rfl
    rw [hlev]
    simp [getEffectiveLevel, effLevelList, h0]

/-- Witness for the amended C7 at a handle with an explicit WARNING level. -/
theorem add_file_handler_level_own_witness :
    ∃ fh : Handler,
      (add_file_handler { level := 30, ancestorLevels := [], handlers := [] }
        (PyPathArg.ofPath "/tmp/app.log") "a" none LOGFORMAT "%Y-%m-%d %H:%M:%S"
        (10 * 1024 * 1024) 5 false false).handlers.getLast? = some fh ∧
      fh.level = ({ level := 30, ancestorLevels := [], handlers := [] } : PyLogger).level ∧
      (({ level := 30, ancestorLevels := [], handlers := [] } : PyLogger).level ≠ 0 →
        fh.level = getEffectiveLevel { level := 30, ancestorLevels := [], handlers := [] }) :=
  add_file_handler_level_own_amended { level := 30, ancestorLevels := [], handlers := [] }
    (PyPathArg.ofPath "/tmp/app.log") "a" LOGFORMAT "%Y-%m-%d %H:%M:%S"
    (10 * 1024 * 1024) 5 false false

/-! ## Claim C4 -/

/-- Claim C4 is false as stated: for a name containing the prefix
`"hhnk_research_tools"`, the returned handle is not always the name with
only that prefix replaced — the replacement loop substitutes every
configured alias throughout the name. -/
theorem get_logger_prefix_only_cex :
    get_logger_name "hhnk_research_tools.hhnk_threedi_tools" = "hrt.htt" ∧
    get_logger_name "hhnk_research_tools.hhnk_threedi_tools" ≠ "hrt.hhnk_threedi_tools" := by
  refine ⟨by decide, by decide⟩

/-- Claim C4, amended: the rewriting applies every configured `(old, new)`
pair in the fixed order of lines 227-233 throughout the name — so a name
starting with `"hhnk_research_tools"` maps to `"hrt"` followed by the
rewriting of the remainder (e.g. `"hhnk_research_tools.module"` to
`"hrt.module"`) — it is idempotent once substituted, and `get_logger`
registers and returns the handle under the rewritten name. -/
theorem get_logger_alias_amended :
    (∀ rest : List Char, rewriteNameL (strP1 ++ rest) = strHrt ++ rewriteNameL rest) ∧
    (∀ n : List Char, rewriteNameL (rewriteNameL n) = rewriteNameL n) ∧
    get_logger_name "hhnk_research_tools.module" = "hrt.module" ∧
    (∀ (reg : List (String × PyLogger)) (name : String) (lvl : Option Nat) (f d : String),
      lookupKey (get_logger_name name) (get_logger reg name lvl f d).2 =
        some (get_logger reg name lvl f d).1) := by
  refine ⟨rewriteNameL_head, rewriteNameL_idem, by decide, ?_⟩
  intro reg name lvl f d
  exact lookup_setKey_same _ _ _

end HrtLogger
